import Mathlib

/-!
Verification development for the Baiku indoor-trainer backend.

The definitions below are a shallow embedding of the Python sources:
  * backend/ble/constants.py   (Indoor Bike Data flag word)
  * backend/ble/ftms_client.py (telemetry decoders, power-target
    normalization, control-point write protocol, metric merging,
    disconnect state handling, simulator tick, scan ordering)
  * backend/workout/runner.py  (workout execution loop)

Machine integers are modelled as Nat/Int with explicit wraparound where
the source masks with 0xFFFF; Python floats are modelled as rationals;
fallible code returns Except/Option.  Python `round` (banker's rounding,
round-half-to-even) is modelled by `pyRound`.
-/

namespace Baiku

/-- Python round-half-to-even (`round(x)`) on a rational, as used by
`normalize_power_target` and the runner's expected-power band. -/
def pyRound (q : ℚ) : ℤ :=
  if q - ⌊q⌋ < 1 / 2 then ⌊q⌋
  else if 1 / 2 < q - ⌊q⌋ then ⌊q⌋ + 1
  else if 2 ∣ ⌊q⌋ then ⌊q⌋ else ⌊q⌋ + 1

/-- Bit test `bool(raw & (1 << k))` on the flag word. -/
def getBit (raw k : ℕ) : Bool := decide (raw / 2 ^ k % 2 = 1)

/-- Little-endian unsigned 16-bit read at offset `o`
(`struct.unpack_from("<H", payload, o)`); callers establish bounds first
via `_require_bytes`, so out-of-range reads use a default of 0. -/
def u16 (payload : List ℕ) (o : ℕ) : ℕ :=
  payload.getD o 0 + 256 * payload.getD (o + 1) 0

/-- Reinterpret an unsigned 16-bit value as signed
(`struct.unpack_from("<h", ...)`). -/
def s16 (n : ℕ) : ℤ :=
  if n < 32768 then (n : ℤ) else (n : ℤ) - 65536

/-- Little-endian byte pair encoding a 16-bit value (for constructing
payloads in theorems). -/
def e16 (n : ℕ) : List ℕ := [n % 256, n / 256]

/-! ## backend/ble/constants.py : Indoor Bike Data flags -/

/-- `IndoorBikeDataFlags` from backend/ble/constants.py. -/
structure IndoorBikeDataFlags where
  more_data : Bool
  average_speed_present : Bool
  instantaneous_cadence_present : Bool
  average_cadence_present : Bool
  total_distance_present : Bool
  resistance_level_present : Bool
  instantaneous_power_present : Bool
  average_power_present : Bool
  expended_energy_present : Bool
  heart_rate_present : Bool
  metabolic_equivalent_present : Bool
  elapsed_time_present : Bool
  remaining_time_present : Bool
deriving DecidableEq, Repr

/-- `parse_indoor_bike_flags` from backend/ble/constants.py: decode the
16-bit flag word, bit k enabling the k-th optional field. -/
def parse_indoor_bike_flags (raw : ℕ) : IndoorBikeDataFlags where
  more_data := getBit raw 0
  average_speed_present := getBit raw 1
  instantaneous_cadence_present := getBit raw 2
  average_cadence_present := getBit raw 3
  total_distance_present := getBit raw 4
  resistance_level_present := getBit raw 5
  instantaneous_power_present := getBit raw 6
  average_power_present := getBit raw 7
  expended_energy_present := getBit raw 8
  heart_rate_present := getBit raw 9
  metabolic_equivalent_present := getBit raw 10
  elapsed_time_present := getBit raw 11
  remaining_time_present := getBit raw 12

/-! ## backend/ble/ftms_client.py : Indoor Bike Data decoding -/

/-- `IndoorBikeData` dataclass: merged telemetry snapshot. -/
structure IndoorBikeData where
  instantaneous_power : Option ℤ := none
  instantaneous_cadence : Option ℚ := none
  instantaneous_speed_kmh : Option ℚ := none
deriving DecidableEq, Repr

/-- Decode-time failures: `ValueError` raised by `parse_indoor_bike_data`
(payload shorter than the 2-byte header) or by `_require_bytes`
(truncated optional field, recording offset and size). -/
inductive BikeErr where
  | tooShort
  | truncated (offset size : ℕ)
deriving DecidableEq, Repr

/-- `_require_bytes(data, cursor, size)`: error when `cursor + size`
exceeds the payload length. -/
def require_bytes (payload : List ℕ) (cursor size : ℕ) : Except BikeErr Unit :=
  if cursor + size > payload.length then .error (.truncated cursor size)
  else .ok ()

/-- `_decode_indoor_bike_data(payload, speed_present=...)`: walk the
optional fields in FTMS order, returning the decoded metrics and the
final cursor. -/
def decode_indoor_bike_data (payload : List ℕ) (speed_present : Bool) :
    Except BikeErr (IndoorBikeData × ℕ) := do
  let flags := parse_indoor_bike_flags (u16 payload 0)
  let cursor := 2
  let (speed_kmh, cursor) ←
    if speed_present then do
      require_bytes payload cursor 2
      pure ((some ((u16 payload cursor : ℚ) / 100), cursor + 2) :
        Option ℚ × ℕ)
    else pure (none, cursor)
  let cursor ←
    if flags.average_speed_present then do
      require_bytes payload cursor 2
      pure (cursor + 2)
    else pure cursor
  let (cadence, cursor) ←
    if flags.instantaneous_cadence_present then do
      require_bytes payload cursor 2
      pure ((some ((u16 payload cursor : ℚ) / 2), cursor + 2) :
        Option ℚ × ℕ)
    else pure (none, cursor)
  let cursor ←
    if flags.average_cadence_present then do
      require_bytes payload cursor 2
      pure (cursor + 2)
    else pure cursor
  let cursor ←
    if flags.total_distance_present then do
      require_bytes payload cursor 3
      pure (cursor + 3)
    else pure cursor
  let cursor ←
    if flags.resistance_level_present then do
      require_bytes payload cursor 2
      pure (cursor + 2)
    else pure cursor
  let (power, cursor) ←
    if flags.instantaneous_power_present then do
      require_bytes payload cursor 2
      pure ((some (s16 (u16 payload cursor)), cursor + 2) : Option ℤ × ℕ)
    else pure (none, cursor)
  let cursor ←
    if flags.average_power_present then do
      require_bytes payload cursor 2
      pure (cursor + 2)
    else pure cursor
  let cursor ←
    if flags.expended_energy_present then do
      require_bytes payload cursor 5
      pure (cursor + 5)
    else pure cursor
  let cursor ←
    if flags.heart_rate_present then do
      require_bytes payload cursor 1
      pure (cursor + 1)
    else pure cursor
  let cursor ←
    if flags.metabolic_equivalent_present then do
      require_bytes payload cursor 1
      pure (cursor + 1)
    else pure cursor
  let cursor ←
    if flags.elapsed_time_present then do
      require_bytes payload cursor 2
      pure (cursor + 2)
    else pure cursor
  let cursor ←
    if flags.remaining_time_present then do
      require_bytes payload cursor 2
      pure (cursor + 2)
    else pure cursor
  pure ({ instantaneous_power := power,
          instantaneous_cadence := cadence,
          instantaneous_speed_kmh := speed_kmh }, cursor)

/-- `_plausibility_score(metrics)`: each present metric outside its
plausible band (cadence 0..220 rpm, power -200..3000 W, speed
0..130 km/h) adds a penalty of 1000. -/
def plausibility_score (metrics : IndoorBikeData) : ℕ :=
  (match metrics.instantaneous_cadence with
    | some cadence => if cadence < 0 ∨ cadence > 220 then 1000 else 0
    | none => 0) +
  (match metrics.instantaneous_power with
    | some power => if power < -200 ∨ power > 3000 then 1000 else 0
    | none => 0) +
  (match metrics.instantaneous_speed_kmh with
    | some speed => if speed < 0 ∨ speed > 130 then 1000 else 0
    | none => 0)

/-- Candidate ordering key used by `parse_indoor_bike_data`:
`(score, trailing_bytes)` lexicographically. -/
def candLt (a b : ℕ × ℕ × IndoorBikeData) : Prop :=
  a.1 < b.1 ∨ (a.1 = b.1 ∧ a.2.1 < b.2.1)

instance : DecidableRel candLt := fun a b => by
  unfold candLt; infer_instance

/-- Stable insertion into an ascending list: `x` goes before the first
element strictly greater than it (so equal keys keep arrival order,
matching Python `list.sort` stability). -/
def insertCand (x : ℕ × ℕ × IndoorBikeData) :
    List (ℕ × ℕ × IndoorBikeData) → List (ℕ × ℕ × IndoorBikeData)
  | [] => [x]
  | y :: ys => if candLt x y then x :: y :: ys else y :: insertCand x ys

/-- Stable sort of the candidate list by `(score, trailing_bytes)`
(`candidates.sort(key=lambda item: (item[0], item[1]))`). -/
def sortCands (l : List (ℕ × ℕ × IndoorBikeData)) :
    List (ℕ × ℕ × IndoorBikeData) :=
  l.foldl (fun acc x => insertCand x acc) []

/-- Spec-implied speed interpretation, tried first:
`preferred_speed_present = not flags.more_data`. -/
def preferredSpeed (payload : List ℕ) : Bool :=
  !(parse_indoor_bike_flags (u16 payload 0)).more_data

/-- `parse_indoor_bike_data(payload)`: reject payloads shorter than the
2-byte header; decode under both speed interpretations (the spec-implied
one first), score the successful parses, and return the candidate with
the lowest `(score, trailing_bytes)` key; if both decodes fail, re-raise
the first error. -/
def parse_indoor_bike_data (payload : List ℕ) : Except BikeErr IndoorBikeData :=
  if payload.length < 2 then .error .tooShort
  else
    let step := fun (acc : List (ℕ × ℕ × IndoorBikeData) × List BikeErr)
        (speed_present : Bool) =>
      match decode_indoor_bike_data payload speed_present with
      | .ok (metrics, cursor) =>
          (acc.1 ++ [(plausibility_score metrics, payload.length - cursor,
            metrics)], acc.2)
      | .error e => (acc.1, acc.2 ++ [e])
    let (candidates, errors) :=
      [preferredSpeed payload, !preferredSpeed payload].foldl step ([], [])
    match sortCands candidates with
    | c :: _ => .ok c.2.2
    | [] =>
        match errors with
        | e :: _ => .error e
        | [] => .error .tooShort

/-! ## backend/ble/ftms_client.py : normalize_power_target -/

/-- `normalize_power_target(requested, min, max, increment)`: clamp into
the supported range, round to the nearest increment step from the
minimum (Python banker's rounding), then safety-reclamp. Increment <= 0
is treated as 1. -/
def normalize_power_target (requested_watts min_watts max_watts increment_watts : ℤ) : ℤ :=
  let inc := if increment_watts ≤ 0 then 1 else increment_watts
  let clamped := min (max requested_watts min_watts) max_watts
  let steps := pyRound (((clamped - min_watts : ℤ) : ℚ) / (inc : ℚ))
  let normalized := min_watts + steps * inc
  min (max normalized min_watts) max_watts

/-! ## backend/ble/ftms_client.py : Cycling Power Measurement (0x2A63) -/

/-- Wraparound-safe 16-bit subtraction `(a - b) & 0xFFFF` on Python
unbounded integers. -/
def wrapSub16 (a b : ℕ) : ℤ := ((a : ℤ) - (b : ℤ)) % 65536

/-- Skip a run of optional fields: each `(present, width)` consumes
`width` bytes when present, `none` when a present field is truncated
(the source then returns the partial result decoded so far). -/
def skipFields (len : ℕ) : List (Bool × ℕ) → ℕ → Option ℕ
  | [], cursor => some cursor
  | (present, size) :: rest, cursor =>
      if present then
        if cursor + size > len then none
        else skipFields len rest (cursor + size)
      else skipFields len rest cursor

/-- Result of `FTMSClient._parse_cycling_power_measurement` together
with the crank-sample state (`_last_crank_revs`,
`_last_crank_event_time`) after the call. -/
structure CPMResult where
  power : Option ℤ
  cadence : Option ℚ
  last_crank_revs : Option ℕ
  last_crank_event_time : Option ℕ
deriving DecidableEq, Repr

/-- `FTMSClient._parse_cycling_power_measurement(payload)`: payloads
under 4 bytes yield `(None, None)`; otherwise read the 16-bit flag word
and signed power, skip pedal-balance / accumulated-torque / wheel fields
(truncation returns the power with no cadence), then derive crank
cadence from the previous crank sample with mod-65536 deltas.  The
post-crank optional fields (extremes, dead spots, energy) only advance
the cursor, which the method does not return, and every post-crank early
return already carries `(power, cadence)`, so they are omitted here. -/
def parse_cycling_power_measurement (last_revs last_time : Option ℕ)
    (payload : List ℕ) : CPMResult :=
  if payload.length < 4 then ⟨none, none, last_revs, last_time⟩
  else
    let flags := u16 payload 0
    let power := s16 (u16 payload 2)
    match skipFields payload.length
        [(getBit flags 0, 1), (getBit flags 2, 2), (getBit flags 4, 6)] 4 with
    | none => ⟨some power, none, last_revs, last_time⟩
    | some cursor =>
      if getBit flags 5 then
        if cursor + 4 > payload.length then ⟨some power, none, last_revs, last_time⟩
        else
          let crank_revs := u16 payload cursor
          let crank_event_time := u16 payload (cursor + 2)
          let cadence : Option ℚ :=
            match last_revs, last_time with
            | some lr, some lt =>
                let delta_revs := wrapSub16 crank_revs lr
                let delta_time_ticks := wrapSub16 crank_event_time lt
                if 0 < delta_time_ticks then
                  some (((delta_revs : ℚ) * 60 * 1024) / (delta_time_ticks : ℚ))
                else if delta_revs = 0 ∧ power = 0 then some 0
                else none
            | _, _ => none
          ⟨some power, cadence, some crank_revs, some crank_event_time⟩
      else ⟨some power, none, last_revs, last_time⟩

/-! ## backend/ble/ftms_client.py : merged metric publication -/

/-- Metric-combining logic of `FTMSClient._publish_merged_metrics`:
power prefers the FTMS value, cadence prefers the crank-derived Cycling
Power value and falls back to the FTMS cadence only when no crank
cadence was ever observed and the FTMS cadence is neither absent nor
0.0; speed is FTMS-only. -/
def publish_merged_metrics (last_ftms_power last_cycling_power : Option ℤ)
    (last_ftms_cadence last_cycling_cadence : Option ℚ)
    (last_ftms_speed : Option ℚ) : IndoorBikeData :=
  let power := match last_ftms_power with
    | some p => some p
    | none => last_cycling_power
  let cadence :=
    if last_cycling_cadence.isSome then last_cycling_cadence
    else if last_ftms_cadence = none ∨ last_ftms_cadence = some 0 then
      last_cycling_cadence
    else last_ftms_cadence
  { instantaneous_power := power,
    instantaneous_cadence := cadence,
    instantaneous_speed_kmh := last_ftms_speed }

/-! ## backend/ble/ftms_client.py : scan -/

/-- `ScannedDevice` dataclass. -/
structure ScannedDevice where
  name : String
  address : String
  rssi : ℤ
  has_ftms : Bool
  manufacturer : Option String
deriving DecidableEq, Repr

/-- One entry of the transport's discovery result: the device
(name/address) and its advertisement data (service UUIDs, RSSI, and the
integer keys of the manufacturer-data dictionary). -/
structure AdvEntry where
  name : Option String
  address : String
  service_uuids : List String
  rssi : ℤ
  manufacturer_keys : List ℕ
deriving DecidableEq, Repr

def FTMS_SERVICE_UUID : String := "00001826-0000-1000-8000-00805f9b34fb"

/-- `_BLE_COMPANY_IDS` table. -/
def BLE_COMPANY_IDS : List (ℕ × String) :=
  [(0x004C, "Apple"), (0x0006, "Microsoft"), (0x000F, "Broadcom"),
   (0x0075, "Samsung"), (0x0087, "Garmin"), (0x00D2, "Wahoo Fitness"),
   (0x011F, "Tacx"), (0x04D8, "Elite")]

/-- `_BRAND_HINTS` table. -/
def BRAND_HINTS : List (String × String) :=
  [("wahoo", "Wahoo Fitness"), ("kicker", "Wahoo Fitness"),
   ("kickr", "Wahoo Fitness"), ("elite", "Elite"), ("direto", "Elite"),
   ("suito", "Elite"), ("tacx", "Tacx"), ("garmin", "Garmin"),
   ("saris", "Saris"), ("stages", "Stages"), ("zwift", "Zwift")]

/-- Uppercase hexadecimal digit. -/
def hexDigit (n : ℕ) : Char :=
  if n < 10 then Char.ofNat (48 + n) else Char.ofNat (55 + n)

/-- Hexadecimal digits of `n`, least significant first (`fuel` bounds the
recursion). -/
def hexRevAux : ℕ → ℕ → List Char
  | 0, _ => []
  | fuel + 1, n => if n = 0 then [] else hexDigit (n % 16) :: hexRevAux fuel (n / 16)

/-- Python `f"0x{key:04X}"` body: uppercase hex, zero-padded to width 4. -/
def hex4Upper (n : ℕ) : String :=
  let digits := if n = 0 then ['0'] else (hexRevAux n n).reverse
  String.mk (List.replicate (4 - digits.length) '0' ++ digits)

/-- Char-list prefix test (needle starts the haystack). -/
def isPrefixList : List Char → List Char → Bool
  | [], _ => true
  | _ :: _, [] => false
  | a :: as, b :: bs => a == b && isPrefixList as bs

/-- Python substring test `needle in hay` on char lists. -/
def isSubstrList (needle : List Char) : List Char → Bool
  | [] => isPrefixList needle []
  | b :: rest => isPrefixList needle (b :: rest) || isSubstrList needle rest

/-- Ascending stable insertion (for Python `sorted` over dict keys). -/
def insertAscNat (x : ℕ) : List ℕ → List ℕ
  | [] => [x]
  | y :: ys => if x < y then x :: y :: ys else y :: insertAscNat x ys

/-- Python `sorted` on a list of naturals. -/
def sortAscNat (l : List ℕ) : List ℕ :=
  l.foldl (fun acc x => insertAscNat x acc) []

/-- `_resolve_manufacturer(name, manufacturer_data)`: first (smallest)
integer key of the manufacturer data resolves through the company table
(unknown ids format as `MFG 0xXXXX`); with no manufacturer data, the
lowercased name is scanned for brand hints in table order. -/
def resolve_manufacturer (name : String) (manufacturer_keys : List ℕ) :
    Option String :=
  match sortAscNat manufacturer_keys with
  | key :: _ =>
      some ((BLE_COMPANY_IDS.lookup key).getD ("MFG " ++ hex4Upper key))
  | [] =>
      let lowered := name.toLower
      (BRAND_HINTS.find? (fun hb => isSubstrList hb.1.data lowered.data)).map
        (fun hb => hb.2)

/-- Descending-RSSI comparison used by `devices.sort(key=..., reverse=True)`. -/
def rssiGe (a b : ScannedDevice) : Prop := b.rssi ≤ a.rssi

instance : DecidableRel rssiGe := fun a b => by unfold rssiGe; infer_instance

/-- `FTMSClient.scan` (hardware path): build one `ScannedDevice` per
discovery entry (FTMS capability from the lowercased advertised UUIDs,
manufacturer resolution as in the source, name defaulting to
"Unknown"), then sort by signal strength, strongest first, stably. -/
def scan (discovered : List AdvEntry) : List ScannedDevice :=
  let devices := discovered.map (fun d =>
    { name := d.name.getD "Unknown",
      address := d.address,
      rssi := d.rssi,
      has_ftms := (d.service_uuids.map String.toLower).contains FTMS_SERVICE_UUID,
      manufacturer := resolve_manufacturer (d.name.getD "") d.manufacturer_keys
      : ScannedDevice })
  List.insertionSort rssiGe devices

/-! ## backend/ble/ftms_client.py : control-point write protocol -/

/-- `struct.pack("<h", w)`: two's-complement little-endian 16-bit
encoding. -/
def pack_s16 (w : ℤ) : List ℕ :=
  [(w % 65536).toNat % 256, (w % 65536).toNat / 256]

/-- The three decreasing command sequences `set_target_power` attempts,
built from the single-byte opcodes `OP_REQUEST_CONTROL = 0x00`,
`OP_START_RESUME = 0x07` and `OP_SET_TARGET_POWER = 0x05` plus the
signed 16-bit little-endian power payload. -/
def ergSequences (target : ℤ) : List (List (List ℕ)) :=
  let request_control := [0x00]
  let start_resume := [0x07]
  let set_target_power := 0x05 :: pack_s16 target
  [[request_control, start_resume, set_target_power],
   [request_control, set_target_power],
   [set_target_power]]

/-- One sequence attempt: issue the control-point writes in order, the
write environment `env` deciding (by global write counter) whether each
write raises; stop at the first failing write.  Returns the first error
(if any) and the counter after the writes actually issued. -/
def writeSeq (env : ℕ → Option ℕ) : List (List ℕ) → ℕ → Option ℕ × ℕ
  | [], n => (none, n)
  | _cmd :: rest, n =>
      match env n with
      | some e => (some e, n + 1)
      | none => writeSeq env rest (n + 1)

/-- The `for sequence in sequences` loop of `set_target_power`: try each
sequence until one completes all writes; collect the error of every
failed sequence.  Returns (success?, sequences attempted, errors,
final write counter). -/
def trySequences (env : ℕ → Option ℕ) :
    List (List (List ℕ)) → ℕ → List ℕ →
      Bool × List (List (List ℕ)) × List ℕ × ℕ
  | [], n, errs => (false, [], errs, n)
  | seq :: rest, n, errs =>
      match writeSeq env seq n with
      | (none, n2) => (true, [seq], errs, n2)
      | (some e, n2) =>
          let (ok, att, errs2, n3) := trySequences env rest n2 (errs ++ [e])
          (ok, seq :: att, errs2, n3)

/-- `FTMSClient.set_target_power` (hardware path, after target
normalization): attempt the three command sequences in order, returning
the target at the first fully successful sequence; if all fail, raise an
error wrapping the last underlying error (`from errors[-1]`).  The
returned list records the sequences attempted, in order. -/
def set_target_power_model (env : ℕ → Option ℕ) (target : ℤ) :
    Except ℕ ℤ × List (List (List ℕ)) :=
  let (ok, attempted, errs, _) := trySequences env (ergSequences target) 0 []
  if ok then (.ok target, attempted)
  else
    match errs.getLast? with
    | some e => (.error e, attempted)
    | none => (.error 0, attempted)

/-! ## backend/ble/ftms_client.py : disconnect -/

/-- Connection-lifecycle state of `FTMSClient` (hardware path): whether
`self._client` holds a transport handle, the service-discovery flag, the
cached supported-power-range capability, and the control-point
indications-enabled flag. -/
structure ClientState where
  client_connected : Bool
  services_discovered : Bool
  supported_power_range : Option (ℤ × ℤ × ℤ)
  control_point_indications_enabled : Bool
deriving DecidableEq, Repr

/-- `FTMSClient.disconnect` (hardware path): when a client handle is
present, disconnect it and reset the handle and the service-discovery
flag; otherwise do nothing.  No other field is touched. -/
def disconnect (s : ClientState) : ClientState :=
  if s.client_connected then
    { s with client_connected := false, services_discovered := false }
  else s

/-! ## backend/ble/ftms_client.py : simulator tick -/

/-- Riding mode of the simulated trainer. -/
inductive SimMode where
  | steady
  | surge
  | recovery
deriving DecidableEq, Repr

/-- Simulator state carried across ticks of `_simulation_loop`. -/
structure SimState where
  tick : ℕ
  mode : SimMode
  mode_remaining : ℕ
  target_watts : ℤ
  power : ℚ
  cadence : ℚ
  speed : ℚ
deriving DecidableEq, Repr

/-- Pseudo-random and sinusoidal inputs consumed by one tick.  The
`rng.random()/uniform/randint` draws are external inputs; the two
sinusoid sums (`math.sin` of the tick counter) are likewise treated as
inputs since their values are irrational — every theorem below holds for
all values. -/
structure SimDraws where
  roll : ℚ
  surge_len : ℕ
  recovery_len : ℕ
  steady_len : ℕ
  surge_offset : ℚ
  surge_cadence_offset : ℚ
  recovery_offset : ℚ
  recovery_cadence_offset : ℚ
  periodic : ℚ
  noise : ℚ
  cadence_periodic : ℚ
  cadence_noise : ℚ
  speed_noise : ℚ
deriving DecidableEq, Repr

/-- Mode selection at the top of a tick: an expired mode is re-rolled
(surge below 0.12, recovery below 0.24, else steady) with a fresh
duration, then the remaining-tick counter is decremented. -/
def tickMode (s : SimState) (d : SimDraws) : SimMode × ℕ :=
  let (mode, remaining) :=
    if s.mode_remaining ≤ 0 then
      if d.roll < 12 / 100 then (SimMode.surge, d.surge_len)
      else if d.roll < 24 / 100 then (SimMode.recovery, d.recovery_len)
      else (SimMode.steady, d.steady_len)
    else (s.mode, s.mode_remaining)
  (mode, remaining - 1)

/-- Power and cadence offsets of the active mode (surge +20..+55 W,
recovery −15..−40 W, steady none). -/
def modeOffsets (mode : SimMode) (d : SimDraws) : ℚ × ℚ :=
  match mode with
  | .surge => (d.surge_offset, d.surge_cadence_offset)
  | .recovery => (-d.recovery_offset, -d.recovery_cadence_offset)
  | .steady => (0, 0)

/-- Dynamic power target: requested target + mode offset + sinusoidal
oscillation + noise, clamped to [50, 1200] W. -/
def dynamicTarget (target_watts : ℤ) (mode_offset periodic noise : ℚ) : ℚ :=
  max 50 (min 1200 ((target_watts : ℚ) + mode_offset + periodic + noise))

/-- The tick's dynamic target after mode selection. -/
def tickDynamicTarget (s : SimState) (d : SimDraws) : ℚ :=
  dynamicTarget s.target_watts (modeOffsets (tickMode s d).1 d).1 d.periodic d.noise

/-- Python `round(x, 1)`. -/
def roundTo1 (q : ℚ) : ℚ := (pyRound (q * 10) : ℚ) / 10

/-- One iteration of `FTMSClient._simulation_loop`: mode update, dynamic
target, first-order power lag capped at ±30 W with a 1 W snap, cadence
and speed tracking their own power-derived targets with their own lag
caps and bounds, and the emitted metrics snapshot. -/
def simTick (s : SimState) (d : SimDraws) : SimState × IndoorBikeData :=
  let (mode, mode_remaining) := tickMode s d
  let dynamic_target := tickDynamicTarget s d
  let cadence_mode_offset := (modeOffsets mode d).2
  let delta := dynamic_target - s.power
  let step := max (-30) (min 30 (delta * (30 / 100)))
  let power1 := s.power + step
  let power := if |power1 - dynamic_target| < 1 then dynamic_target else power1
  let cadence_target := 70 + power / (88 / 10) + cadence_mode_offset +
    d.cadence_periodic + d.cadence_noise
  let speed_target := 14 + power / 11 + d.speed_noise
  let cadence1 := s.cadence +
    max (-(55 / 10)) (min (55 / 10) ((cadence_target - s.cadence) * (55 / 100)))
  let speed1 := s.speed +
    max (-(28 / 10)) (min (28 / 10) ((speed_target - s.speed) * (40 / 100)))
  let cadence := max 45 (min 128 cadence1)
  let speed := max 7 (min 78 speed1)
  ({ tick := s.tick + 1, mode := mode, mode_remaining := mode_remaining,
     target_watts := s.target_watts, power := power, cadence := cadence,
     speed := speed },
   { instantaneous_power := some (pyRound power),
     instantaneous_cadence := some (roundTo1 cadence),
     instantaneous_speed_kmh := some (roundTo1 speed) })

/-! ## backend/workout/runner.py : workout execution -/

/-- Target mode literal (erg / resistance / slope). -/
inductive TargetMode where
  | erg
  | resistance
  | slope
deriving DecidableEq, Repr

/-- `WorkoutStep` from backend/workout/model.py. -/
structure WorkoutStep where
  duration_sec : ℕ
  target_watts : ℤ
  label : Option String := none
  cadence_min_rpm : Option ℤ := none
  cadence_max_rpm : Option ℤ := none
deriving DecidableEq, Repr

/-- `WorkoutPlan.total_duration_sec`: the sum of the step durations. -/
def total_duration_sec (steps : List WorkoutStep) : ℕ :=
  (steps.map (fun st => st.duration_sec)).sum

/-- `_watts_to_resistance(target, ftp)`: percentage of effective FTP
(max 100, ftp), clamped to [1, 200]. -/
def watts_to_resistance (target_watts ftp_watts : ℤ) : ℚ :=
  let safe_ftp := max 100 ftp_watts
  max 1 (min 200 (((target_watts : ℚ) / (safe_ftp : ℚ)) * 100))

/-- `_watts_to_slope(target, ftp)`: `(target - effective_ftp) / 20`,
clamped to [-10, 15]. -/
def watts_to_slope (target_watts ftp_watts : ℤ) : ℚ :=
  let safe_ftp := max 100 ftp_watts
  max (-10) (min 15 (((target_watts : ℚ) - (safe_ftp : ℚ)) / 20))

/-- `_expected_power_min(target)`: 95% of target, rounded, at least 1. -/
def expected_power_min (target_watts : ℤ) : ℤ :=
  max 1 (pyRound ((target_watts : ℚ) * (95 / 100)))

/-- `_expected_power_max(target)`: 105% of target, rounded, at least 1. -/
def expected_power_max (target_watts : ℤ) : ℤ :=
  max 1 (pyRound ((target_watts : ℚ) * (105 / 100)))

/-- `WorkoutProgress` snapshot emitted once per second. -/
structure WorkoutProgress where
  step_index : ℕ
  step_total : ℕ
  step_label : String
  target_watts : ℤ
  target_mode : TargetMode
  target_display_value : ℚ
  target_display_unit : String
  expected_power_min_watts : ℤ
  expected_power_max_watts : ℤ
  expected_cadence_min_rpm : Option ℤ
  expected_cadence_max_rpm : Option ℤ
  step_duration_sec : ℕ
  step_elapsed_sec : ℕ
  remaining_sec : ℕ
  elapsed_total_sec : ℕ
  total_duration_sec : ℕ
  total_remaining_sec : ℕ
deriving DecidableEq, Repr

/-- Per-mode request value and display unit of `_apply_step_target`:
erg sends the step's absolute watts (unit "W"); resistance and slope
convert through the FTP-relative formulas (unit "%"). -/
def modeRequest (mode : TargetMode) (st : WorkoutStep) (ftp_watts : ℤ) :
    ℚ × String :=
  match mode with
  | .erg => ((st.target_watts : ℚ), "W")
  | .resistance => (watts_to_resistance st.target_watts ftp_watts, "%")
  | .slope => (watts_to_slope st.target_watts ftp_watts, "%")

/-- Retry loop of `_apply_step_target`: while attempts remain (`fuel`
counts down from 3) and no stop is pending at the current time, issue
the client call (the environment `env` maps the global call counter and
requested value to the applied value or an error); a failure records the
exception and sleeps one second.  Exhaustion (or a pending stop) raises,
wrapping the last error when one exists.  Returns (result, next call
counter, next time). -/
def applyLoop (stop : ℕ → Bool) (env : ℕ → ℚ → Except ℕ ℚ) (req : ℚ)
    (unit : String) :
    ℕ → ℕ → ℕ → Option ℕ → (Except (Option ℕ) (ℚ × String)) × ℕ × ℕ
  | 0, k, t, last => (.error last, k, t)
  | fuel + 1, k, t, last =>
      if stop t then (.error last, k, t)
      else
        match env k req with
        | .ok v => (.ok (v, unit), k + 1, t)
        | .error e => applyLoop stop env req unit fuel (k + 1) (t + 1) (some e)

/-- `WorkoutRunner._apply_step_target`: up to 3 attempts with 1-second
backoff, returning (applied value, unit) on the first success. -/
def apply_step_target (stop : ℕ → Bool) (env : ℕ → ℚ → Except ℕ ℚ)
    (mode : TargetMode) (st : WorkoutStep) (ftp_watts : ℤ) (k t : ℕ) :
    (Except (Option ℕ) (ℚ × String)) × ℕ × ℕ :=
  let (req, unit) := modeRequest mode st ftp_watts
  applyLoop stop env req unit 3 k t none

/-- Label of a step: Python `step.label or f"Step {step_index}"` (the
empty string is falsy). -/
def stepLabel (st : WorkoutStep) (step_index : ℕ) : String :=
  match st.label with
  | some l => if l = "" then "Step " ++ toString step_index else l
  | none => "Step " ++ toString step_index

/-- The progress snapshot emitted by one countdown tick with
`remaining` seconds left in the step. -/
def mkProgress (mode : TargetMode) (value : ℚ) (unit : String)
    (st : WorkoutStep) (step_index step_total elapsed_offset total_dur
      remaining : ℕ) : WorkoutProgress :=
  let step_elapsed := (st.duration_sec - remaining) + 1
  let elapsed_total := elapsed_offset + step_elapsed
  { step_index := step_index,
    step_total := step_total,
    step_label := stepLabel st step_index,
    target_watts := st.target_watts,
    target_mode := mode,
    target_display_value := value,
    target_display_unit := unit,
    expected_power_min_watts := expected_power_min st.target_watts,
    expected_power_max_watts := expected_power_max st.target_watts,
    expected_cadence_min_rpm := st.cadence_min_rpm,
    expected_cadence_max_rpm := st.cadence_max_rpm,
    step_duration_sec := st.duration_sec,
    step_elapsed_sec := step_elapsed,
    remaining_sec := remaining,
    elapsed_total_sec := elapsed_total,
    total_duration_sec := total_dur,
    total_remaining_sec := total_dur - elapsed_total }

/-- `WorkoutRunner._countdown_step`: for `remaining` from the step
duration down to 1, stop silently if a stop is pending, otherwise emit
one progress snapshot (stamped here with the emission time) and sleep
one second.  Returns the emitted events and the exit time. -/
def countdown_step (stop : ℕ → Bool) (mode : TargetMode) (value : ℚ)
    (unit : String) (st : WorkoutStep)
    (step_index step_total elapsed_offset total_dur : ℕ) :
    ℕ → ℕ → List (ℕ × WorkoutProgress) × ℕ
  | 0, t => ([], t)
  | remaining + 1, t =>
      if stop t then ([], t)
      else
        match countdown_step stop mode value unit st step_index step_total
            elapsed_offset total_dur remaining (t + 1) with
        | (rest, t2) =>
            ((t, mkProgress mode value unit st step_index step_total
              elapsed_offset total_dur (remaining + 1)) :: rest, t2)

/-- Step loop of `WorkoutRunner._run`: break before a step if a stop is
pending; apply the step's target (an error aborts the run); tick the
step's countdown; continue with the accumulated elapsed offset.
Returns (events, aborted-with-error?, exit time). -/
def run_steps (stop : ℕ → Bool) (env : ℕ → ℚ → Except ℕ ℚ)
    (mode : TargetMode) (ftp_watts : ℤ) (step_total total_dur : ℕ) :
    List WorkoutStep → ℕ → ℕ → ℕ → ℕ →
      List (ℕ × WorkoutProgress) × Bool × ℕ
  | [], _, _, _, t => ([], false, t)
  | st :: rest, index, elapsed_offset, k, t =>
      if stop t then ([], false, t)
      else
        match apply_step_target stop env mode st ftp_watts k t with
        | (.error _, _, t2) => ([], true, t2)
        | (.ok (value, unit), k2, t2) =>
            let (evs, t3) := countdown_step stop mode value unit st index
              step_total elapsed_offset total_dur st.duration_sec t2
            let (evs2, err, t4) := run_steps stop env mode ftp_watts step_total
              total_dur rest (index + 1) (elapsed_offset + st.duration_sec) k2 t3
            (evs ++ evs2, err, t4)

/-- Outcome of one workout run: the progress events (time-stamped), the
aborted-with-error flag, the loop-exit time, and the arguments of every
finish-callback invocation. -/
structure RunOutcome where
  events : List (ℕ × WorkoutProgress)
  err : Bool
  end_time : ℕ
  finishes : List Bool
deriving DecidableEq, Repr

/-- `WorkoutRunner._run`: run the steps from index 1; on loop exit
`completed = not stop-set` (and `completed` stays False when a step
aborted with an error); the `finally` block invokes the finish callback
exactly once with that value. -/
def workout_run (stop : ℕ → Bool) (env : ℕ → ℚ → Except ℕ ℚ)
    (mode : TargetMode) (ftp_watts : ℤ) (steps : List WorkoutStep) :
    RunOutcome :=
  let (evs, err, t) := run_steps stop env mode ftp_watts steps.length
    (total_duration_sec steps) steps 1 0 0 0
  { events := evs, err := err, end_time := t,
    finishes := [if err then false else !stop t] }

/-! ## Theorems -/

theorem okBind {ε α β : Type} (a : α) (f : α → Except ε β) :
    (Except.ok a >>= f) = f a := rfl

theorem errBind {ε α β : Type} (e : ε) (f : α → Except ε β) :
    (Except.error e >>= f : Except ε β) = Except.error e := rfl

theorem purePE {ε α : Type} (a : α) : (pure a : Except ε α) = Except.ok a := rfl

/-- Case-by-case description of `parse_indoor_bike_data` in terms of the
two candidate decodes: both fail → first error; one succeeds → that one;
both succeed → the preferred one unless the alternative has a strictly
smaller `(score, trailing)` key. -/
theorem parse_indoor_bike_data_eq_cases (payload : List ℕ)
    (h : 2 ≤ payload.length) :
    parse_indoor_bike_data payload =
      match decode_indoor_bike_data payload (preferredSpeed payload),
          decode_indoor_bike_data payload (!preferredSpeed payload) with
      | .error eA, .error _ => .error eA
      | .ok (mA, _), .error _ => .ok mA
      | .error _, .ok (mB, _) => .ok mB
      | .ok (mA, cA), .ok (mB, cB) =>
          .ok (if candLt (plausibility_score mB, payload.length - cB, mB)
              (plausibility_score mA, payload.length - cA, mA)
            then mB else mA) := by
  rcases h1 : decode_indoor_bike_data payload (preferredSpeed payload) with eA | ⟨mA, cA⟩ <;>
    rcases h2 : decode_indoor_bike_data payload (!preferredSpeed payload) with eB | ⟨mB, cB⟩ <;>
      simp only [parse_indoor_bike_data, if_neg (by omega : ¬ payload.length < 2),
        List.foldl, h1, h2, sortCands, insertCand] <;>
      first
        | rfl
        | (by_cases hlt : candLt (plausibility_score mB, payload.length - cB, mB)
              (plausibility_score mA, payload.length - cA, mA) <;>
            simp [hlt])

/-- C1: for every Indoor Bike Data payload of at least 2 bytes,
`parse_indoor_bike_data` decodes under both the speed-present and
speed-absent interpretations and (a) if both fail, raises the first
parse error; (b)/(c) if exactly one parses, returns it; (d) if both
parse, returns the candidate with the lowest plausibility penalty,
breaking score ties in favour of fewer trailing unconsumed bytes, so
the chosen candidate's score is ≤ the rejected candidate's score. -/
theorem parse_indoor_bike_data_picks_lowest_penalty (payload : List ℕ)
    (h : 2 ≤ payload.length) :
    (∀ eA eB, decode_indoor_bike_data payload (preferredSpeed payload) = .error eA →
      decode_indoor_bike_data payload (!preferredSpeed payload) = .error eB →
      parse_indoor_bike_data payload = .error eA) ∧
    (∀ mA cA eB, decode_indoor_bike_data payload (preferredSpeed payload) = .ok (mA, cA) →
      decode_indoor_bike_data payload (!preferredSpeed payload) = .error eB →
      parse_indoor_bike_data payload = .ok mA) ∧
    (∀ eA mB cB, decode_indoor_bike_data payload (preferredSpeed payload) = .error eA →
      decode_indoor_bike_data payload (!preferredSpeed payload) = .ok (mB, cB) →
      parse_indoor_bike_data payload = .ok mB) ∧
    (∀ mA cA mB cB, decode_indoor_bike_data payload (preferredSpeed payload) = .ok (mA, cA) →
      decode_indoor_bike_data payload (!preferredSpeed payload) = .ok (mB, cB) →
      ((plausibility_score mA < plausibility_score mB ∨
          (plausibility_score mA = plausibility_score mB ∧
            payload.length - cA ≤ payload.length - cB)) →
        parse_indoor_bike_data payload = .ok mA) ∧
      ((plausibility_score mB < plausibility_score mA ∨
          (plausibility_score mB = plausibility_score mA ∧
            payload.length - cB < payload.length - cA)) →
        parse_indoor_bike_data payload = .ok mB) ∧
      (∀ m, parse_indoor_bike_data payload = .ok m →
        plausibility_score m ≤ plausibility_score mA ∧
        plausibility_score m ≤ plausibility_score mB)) := by
  have key := parse_indoor_bike_data_eq_cases payload h
  refine ⟨?_, ?_, ?_, ?_⟩
  · intro eA eB h1 h2; rw [key, h1, h2]
  · intro mA cA eB h1 h2; rw [key, h1, h2]
  · intro eA mB cB h1 h2; rw [key, h1, h2]
  · intro mA cA mB cB h1 h2
    rw [h1, h2] at key
    dsimp only at key
    have hcl : candLt (plausibility_score mB, payload.length - cB, mB)
        (plausibility_score mA, payload.length - cA, mA) ↔
        (plausibility_score mB < plausibility_score mA ∨
          (plausibility_score mB = plausibility_score mA ∧
            payload.length - cB < payload.length - cA)) := Iff.rfl
    refine ⟨?_, ?_, ?_⟩
    · intro hbetter
      rw [key, if_neg]
      rw [hcl]
      omega
    · intro hbetter
      rw [key, if_pos]
      rw [hcl]
      omega
    · intro m hm
      rw [key] at hm
      by_cases hlt : candLt (plausibility_score mB, payload.length - cB, mB)
          (plausibility_score mA, payload.length - cA, mA)
      · rw [if_pos hlt] at hm
        cases hm
        rw [hcl] at hlt
        omega
      · rw [if_neg hlt] at hm
        cases hm
        rw [hcl] at hlt
        omega

/-- Witness for C1 at the canonical spec payload (flags 0x0044, speed
3000, cadence raw 176, power 182): both interpretations parse; the
preferred (speed-present) candidate scores 0, the alternative scores
1000, and the decoder returns the preferred metrics. -/
theorem parse_indoor_bike_data_picks_lowest_penalty_witness :
    2 ≤ ([0x44, 0x00, 0xB8, 0x0B, 0xB0, 0x00, 0xB6, 0x00] : List ℕ).length ∧
    parse_indoor_bike_data [0x44, 0x00, 0xB8, 0x0B, 0xB0, 0x00, 0xB6, 0x00] =
      .ok ⟨some 182, some 88, some 30⟩ := by
  refine ⟨by norm_num, ?_⟩
  have hA : decode_indoor_bike_data [0x44, 0x00, 0xB8, 0x0B, 0xB0, 0x00, 0xB6, 0x00]
      (preferredSpeed [0x44, 0x00, 0xB8, 0x0B, 0xB0, 0x00, 0xB6, 0x00]) =
      .ok (⟨some 182, some 88, some 30⟩, 8) := by
    rw [show preferredSpeed [0x44, 0x00, 0xB8, 0x0B, 0xB0, 0x00, 0xB6, 0x00] = true by
      norm_num [preferredSpeed, parse_indoor_bike_flags, getBit, u16],
      decode_indoor_bike_data]
    norm_num [parse_indoor_bike_flags, getBit, u16, s16, require_bytes,
      okBind, errBind, purePE]
  have hB : decode_indoor_bike_data [0x44, 0x00, 0xB8, 0x0B, 0xB0, 0x00, 0xB6, 0x00]
      (!preferredSpeed [0x44, 0x00, 0xB8, 0x0B, 0xB0, 0x00, 0xB6, 0x00]) =
      .ok (⟨some 176, some 1500, none⟩, 6) := by
    rw [show preferredSpeed [0x44, 0x00, 0xB8, 0x0B, 0xB0, 0x00, 0xB6, 0x00] = true by
      norm_num [preferredSpeed, parse_indoor_bike_flags, getBit, u16],
      Bool.not_true, decode_indoor_bike_data]
    norm_num [parse_indoor_bike_flags, getBit, u16, s16, require_bytes,
      okBind, errBind, purePE]
  have := ((parse_indoor_bike_data_picks_lowest_penalty
      [0x44, 0x00, 0xB8, 0x0B, 0xB0, 0x00, 0xB6, 0x00] (by norm_num)).2.2.2
      _ _ _ _ hA hB).1
  apply this
  left
  norm_num [plausibility_score]

theorem pyRound_floor_le (q : ℚ) : ⌊q⌋ ≤ pyRound q := by
  unfold pyRound
  split_ifs <;> omega

theorem pyRound_le_floor_add_one (q : ℚ) : pyRound q ≤ ⌊q⌋ + 1 := by
  unfold pyRound
  split_ifs <;> omega

theorem pyRound_nonneg {q : ℚ} (h : 0 ≤ q) : 0 ≤ pyRound q :=
  le_trans (Int.floor_nonneg.mpr h) (pyRound_floor_le q)

theorem pyRound_intCast (k : ℤ) : pyRound (k : ℚ) = k := by
  unfold pyRound
  rw [Int.floor_intCast]
  norm_num

theorem pyRound_mono {q r : ℚ} (h : q ≤ r) : pyRound q ≤ pyRound r := by
  rcases lt_or_eq_of_le (Int.floor_le_floor h) with hf | hf
  · calc pyRound q ≤ ⌊q⌋ + 1 := pyRound_le_floor_add_one q
    _ ≤ ⌊r⌋ := by omega
    _ ≤ pyRound r := pyRound_floor_le r
  · have hfr : q - (⌊r⌋ : ℚ) ≤ r - (⌊r⌋ : ℚ) := by linarith
    unfold pyRound
    rw [hf]
    split_ifs <;> first | omega | linarith

/-- C2 counterexample: with range [0, 10] and increment 6, a request of
10 clamps to 10, rounds to step 2 (value 12), and is safety-reclamped to
10 — which is not `min + k * increment` for any integer k. -/
theorem normalize_power_target_off_grid :
    normalize_power_target 10 0 10 6 = 10 ∧ ¬ ((6 : ℤ) ∣ 10 - 0) := by
  constructor
  · norm_num [normalize_power_target, pyRound]
  · decide

/-- C2 (amended): for min ≤ max, `normalize_power_target` returns a
value inside [min, max] that is either min plus a non-negative integer
multiple of the effective increment (increment ≤ 0 treated as 1) or —
when the rounded grid point overshoots — the safety-reclamped max; and
the function is idempotent. -/
theorem normalize_power_target_spec (req mn mx inc : ℤ) (h : mn ≤ mx) :
    (mn ≤ normalize_power_target req mn mx inc ∧
      normalize_power_target req mn mx inc ≤ mx) ∧
    ((∃ k : ℤ, 0 ≤ k ∧ normalize_power_target req mn mx inc =
        mn + k * (if inc ≤ 0 then 1 else inc)) ∨
      normalize_power_target req mn mx inc = mx) ∧
    normalize_power_target (normalize_power_target req mn mx inc) mn mx inc =
      normalize_power_target req mn mx inc := by
  have hi : (0 : ℤ) < if inc ≤ 0 then 1 else inc := by
    split_ifs with h0 <;> omega
  set i : ℤ := if inc ≤ 0 then 1 else inc with hidef
  have hiQ : (0 : ℚ) < (i : ℚ) := by exact_mod_cast hi
  set c : ℤ := min (max req mn) mx with hcdef
  have hc1 : mn ≤ c := le_min (le_trans (le_max_right req mn) (le_refl _)) h
  have hc2 : c ≤ mx := min_le_right _ _
  set s : ℤ := pyRound (((c - mn : ℤ) : ℚ) / (i : ℚ)) with hsdef
  have hs : 0 ≤ s := by
    apply pyRound_nonneg
    apply div_nonneg _ (le_of_lt hiQ)
    have : (0 : ℤ) ≤ c - mn := by omega
    exact_mod_cast this
  have hkey : normalize_power_target req mn mx inc = min (mn + s * i) mx := by
    simp only [normalize_power_target, ← hidef, ← hcdef, ← hsdef]
    have : mn ≤ mn + s * i := by nlinarith
    rw [max_eq_left this]
  -- round-trip of an exact grid point through the rounding
  have hgrid : ∀ v : ℤ, mn ≤ v → v ≤ mx → v = mn + pyRound (((v - mn : ℤ) : ℚ) / (i : ℚ)) * i →
      normalize_power_target v mn mx inc = v := by
    intro v hv1 hv2 hv3
    simp only [normalize_power_target, ← hidef]
    rw [max_eq_left hv1, min_eq_left hv2, ← hv3, max_eq_left hv1, min_eq_left hv2]
  rcases le_or_lt (mn + s * i) mx with hle | hgt
  · -- no reclamp: the result is the grid point itself
    have hres : normalize_power_target req mn mx inc = mn + s * i := by
      rw [hkey, min_eq_left hle]
    have hback : ((mn + s * i - mn : ℤ) : ℚ) / (i : ℚ) = (s : ℚ) := by
      field_simp
    refine ⟨⟨by nlinarith [hres], by rw [hres]; exact hle⟩,
      Or.inl ⟨s, hs, hres⟩, ?_⟩
    rw [hres]
    apply hgrid _ (by nlinarith) hle
    rw [hback, pyRound_intCast]
  · -- reclamp to max: re-normalizing max stays at max
    have hres : normalize_power_target req mn mx inc = mx := by
      rw [hkey, min_eq_right (le_of_lt hgt)]
    refine ⟨⟨by rw [hres]; exact h, le_of_eq hres⟩, Or.inr hres, ?_⟩
    rw [hres]
    have hmono : s ≤ pyRound (((mx - mn : ℤ) : ℚ) / (i : ℚ)) := by
      apply pyRound_mono
      apply div_le_div_of_nonneg_right ?_ (le_of_lt hiQ)
      have : (c - mn : ℤ) ≤ (mx - mn : ℤ) := by omega
      exact_mod_cast this
    set t : ℤ := pyRound (((mx - mn : ℤ) : ℚ) / (i : ℚ)) with htdef
    have hgt2 : mx < mn + t * i := by nlinarith
    simp only [normalize_power_target, ← hidef]
    rw [max_eq_left h, min_eq_left (le_refl mx), ← htdef,
      max_eq_left (by nlinarith : mn ≤ mn + t * i),
      min_eq_right (le_of_lt hgt2)]

/-- Witness for C2 at the simulator's range: 203 W in [50, 1200] step 5
normalizes inside the range, onto the grid-or-max, idempotently. -/
theorem normalize_power_target_spec_witness :
    (50 : ℤ) ≤ 1200 ∧
    ((50 ≤ normalize_power_target 203 50 1200 5 ∧
      normalize_power_target 203 50 1200 5 ≤ 1200) ∧
    ((∃ k : ℤ, 0 ≤ k ∧ normalize_power_target 203 50 1200 5 =
        50 + k * (if (5 : ℤ) ≤ 0 then 1 else 5)) ∨
      normalize_power_target 203 50 1200 5 = 1200) ∧
    normalize_power_target (normalize_power_target 203 50 1200 5) 50 1200 5 =
      normalize_power_target 203 50 1200 5) :=
  ⟨by decide, normalize_power_target_spec 203 50 1200 5 (by decide)⟩

/-- C4 counterexample: consecutive crank samples with a zero time delta,
zero reported power but a NON-zero revolution delta (previous sample
revs=0 time=0, new payload revs=3 time=0, power=0) yield no cadence at
all, not the 0.0 the claim asserts for every zero-time-delta zero-power
pair: the source additionally requires `delta_revs == 0`. -/
theorem cpm_zero_time_delta_nonzero_revs :
    (parse_cycling_power_measurement (some 0) (some 0)
        [0x20, 0x00, 0x00, 0x00, 0x03, 0x00, 0x00, 0x00]).cadence = none ∧
    (parse_cycling_power_measurement (some 0) (some 0)
        [0x20, 0x00, 0x00, 0x00, 0x03, 0x00, 0x00, 0x00]).power = some 0 := by
  constructor <;> decide

/-- C4 (amended): for every pair of consecutive crank samples (previous
counters `lr`, `lt`; new payload carrying power word `u`, crank
revolutions `r2` and event time `t2`, all 16-bit), the decoder computes
cadence as `delta_revs * 60 * 1024 / delta_time_ticks` with both deltas
taken mod 65536; when the time delta is zero, cadence is 0.0 exactly
when the revolution delta is also zero and the reported power is zero,
and is absent otherwise.  In particular revolution delta 2 with time
delta 1024 gives exactly 120.0 rpm (see the witness). -/
theorem cpm_crank_cadence (lr lt r2 t2 u : ℕ)
    (hu : u < 65536) (hr : r2 < 65536) (ht : t2 < 65536) :
    parse_cycling_power_measurement (some lr) (some lt)
        ([0x20, 0x00] ++ e16 u ++ e16 r2 ++ e16 t2) =
      ⟨some (s16 u),
        (if 0 < wrapSub16 t2 lt then
          some (((wrapSub16 r2 lr : ℚ) * 60 * 1024) / ((wrapSub16 t2 lt : ℚ)))
        else if wrapSub16 r2 lr = 0 ∧ s16 u = 0 then some 0
        else none),
        some r2, some t2⟩ := by
  simp [parse_cycling_power_measurement, e16, u16, List.getD, skipFields,
    getBit, Nat.mod_add_div]

/-- Witness for C4 at the spec's example: revolution delta 2 over
1024 ticks (one second) is exactly 120.0 rpm. -/
theorem cpm_crank_cadence_witness :
    (100 : ℕ) < 65536 ∧ (2 : ℕ) < 65536 ∧ (1024 : ℕ) < 65536 ∧
    (parse_cycling_power_measurement (some 0) (some 0)
        ([0x20, 0x00] ++ e16 100 ++ e16 2 ++ e16 1024)).cadence = some 120 ∧
    (parse_cycling_power_measurement (some 0) (some 0)
        ([0x20, 0x00] ++ e16 100 ++ e16 2 ++ e16 1024)).power = some 100 := by
  have h := cpm_crank_cadence 0 0 2 1024 100 (by decide) (by decide) (by decide)
  refine ⟨by decide, by decide, by decide, ?_, ?_⟩
  · rw [h]
    norm_num [wrapSub16]
  · rw [h]
    decide

/-- C8: the merged snapshot's cadence is the crank-derived Cycling Power
cadence whenever one has ever been observed; otherwise it is the FTMS
cadence, except that an FTMS cadence that is absent or exactly 0.0
triggers the fallback to the (never observed, hence absent) crank value
— the fallback trigger is exactly (None or == 0.0). -/
theorem merged_cadence_prefers_crank (fp cp : Option ℤ) (fc cc fs : Option ℚ) :
    (publish_merged_metrics fp cp fc cc fs).instantaneous_cadence =
      match cc with
      | some c => some c
      | none => if fc = none ∨ fc = some 0 then none else fc := by
  cases cc <;> simp [publish_merged_metrics]

/-- C10: every device list produced by a completed hardware scan is
sorted by signal strength in non-increasing RSSI order (strongest
first). -/
theorem scan_sorted_by_rssi_desc (discovered : List AdvEntry) :
    ((scan discovered).Sorted rssiGe) ∧
    (scan discovered).Pairwise (fun a b => b.rssi ≤ a.rssi) := by
  haveI : IsTotal ScannedDevice rssiGe := ⟨fun a b => le_total b.rssi a.rssi⟩
  haveI : IsTrans ScannedDevice rssiGe := ⟨fun _ _ _ h1 h2 => le_trans h2 h1⟩
  have h : (scan discovered).Sorted rssiGe := List.sorted_insertionSort rssiGe _
  exact ⟨h, h⟩

/-- C5: setting an ERG power target attempts exactly the three command
sequences (request-control, start-resume, set-target), then
(request-control, set-target), then (set-target alone), in this order,
returning the target at the first sequence whose writes all succeed, and
raising an error wrapping the LAST underlying error only after all three
sequences fail. -/
theorem set_target_power_three_sequences (env : ℕ → Option ℕ) (w : ℤ) :
    (∀ n1, writeSeq env [[0x00], [0x07], 0x05 :: pack_s16 w] 0 = (none, n1) →
      set_target_power_model env w =
        (.ok w, [[[0x00], [0x07], 0x05 :: pack_s16 w]])) ∧
    (∀ e1 n1 n2, writeSeq env [[0x00], [0x07], 0x05 :: pack_s16 w] 0 = (some e1, n1) →
      writeSeq env [[0x00], 0x05 :: pack_s16 w] n1 = (none, n2) →
      set_target_power_model env w =
        (.ok w, [[[0x00], [0x07], 0x05 :: pack_s16 w],
                 [[0x00], 0x05 :: pack_s16 w]])) ∧
    (∀ e1 n1 e2 n2 n3, writeSeq env [[0x00], [0x07], 0x05 :: pack_s16 w] 0 = (some e1, n1) →
      writeSeq env [[0x00], 0x05 :: pack_s16 w] n1 = (some e2, n2) →
      writeSeq env [0x05 :: pack_s16 w] n2 = (none, n3) →
      set_target_power_model env w =
        (.ok w, [[[0x00], [0x07], 0x05 :: pack_s16 w],
                 [[0x00], 0x05 :: pack_s16 w],
                 [0x05 :: pack_s16 w]])) ∧
    (∀ e1 n1 e2 n2 e3 n3, writeSeq env [[0x00], [0x07], 0x05 :: pack_s16 w] 0 = (some e1, n1) →
      writeSeq env [[0x00], 0x05 :: pack_s16 w] n1 = (some e2, n2) →
      writeSeq env [0x05 :: pack_s16 w] n2 = (some e3, n3) →
      set_target_power_model env w =
        (.error e3, [[[0x00], [0x07], 0x05 :: pack_s16 w],
                     [[0x00], 0x05 :: pack_s16 w],
                     [0x05 :: pack_s16 w]])) := by
  refine ⟨?_, ?_, ?_, ?_⟩
  · intro n1 h1
    simp [set_target_power_model, ergSequences, trySequences, h1]
  · intro e1 n1 n2 h1 h2
    simp [set_target_power_model, ergSequences, trySequences, h1, h2]
  · intro e1 n1 e2 n2 n3 h1 h2 h3
    simp [set_target_power_model, ergSequences, trySequences, h1, h2, h3]
  · intro e1 n1 e2 n2 e3 n3 h1 h2 h3
    simp [set_target_power_model, ergSequences, trySequences, h1, h2, h3]

/-- Witness for C5: with an environment whose first three writes fail
(codes 11, 12) and later writes succeed, the first two sequences fail,
the third succeeds, and the model returns the target after attempting
all three sequences in order. -/
theorem set_target_power_three_sequences_witness :
    writeSeq (fun n => if n = 0 ∨ n = 3 then some (11 + n) else none)
        [[0x00], [0x07], 0x05 :: pack_s16 200] 0 = (some 11, 1) ∧
    writeSeq (fun n => if n = 0 ∨ n = 3 then some (11 + n) else none)
        [[0x00], 0x05 :: pack_s16 200] 1 = (none, 3) ∧
    set_target_power_model (fun n => if n = 0 ∨ n = 3 then some (11 + n) else none) 200 =
      (.ok 200, [[[0x00], [0x07], 0x05 :: pack_s16 200],
                 [[0x00], 0x05 :: pack_s16 200]]) := by
  refine ⟨by decide, by decide, ?_⟩
  exact (set_target_power_three_sequences
      (fun n => if n = 0 ∨ n = 3 then some (11 + n) else none) 200).2.1
    11 1 3 (by decide) (by decide)

/-- C7 (code bug): `disconnect()` is idempotent, but contrary to the
claim (and the spec) it does NOT clear the cached supported-power-range
capability or the control-point notification-enabled flag: from a
connected state holding a cached range (30, 500, 5) and an enabled
indications flag, disconnecting resets only the client handle and the
service-discovery flag — the capability state survives into the next
connection. -/
theorem disconnect_retains_capability_state :
    disconnect ⟨true, true, some (30, 500, 5), true⟩ =
      ⟨false, false, some (30, 500, 5), true⟩ ∧
    disconnect (disconnect ⟨true, true, some (30, 500, 5), true⟩) =
      disconnect ⟨true, true, some (30, 500, 5), true⟩ ∧
    (disconnect ⟨true, true, some (30, 500, 5), true⟩).supported_power_range ≠ none ∧
    (disconnect ⟨true, true, some (30, 500, 5), true⟩).control_point_indications_enabled ≠
      false := by
  refine ⟨by decide, by decide, by decide, by decide⟩

theorem simTick_power_eq (s : SimState) (d : SimDraws) :
    (simTick s d).1.power =
      (if |s.power + max (-30) (min 30 ((tickDynamicTarget s d - s.power) * (30 / 100))) -
            tickDynamicTarget s d| < 1
        then tickDynamicTarget s d
        else s.power +
          max (-30) (min 30 ((tickDynamicTarget s d - s.power) * (30 / 100)))) := rfl

theorem simTick_cadence_eq (s : SimState) (d : SimDraws) :
    ∃ x, (simTick s d).1.cadence = max 45 (min 128 x) := ⟨_, rfl⟩

theorem simTick_speed_eq (s : SimState) (d : SimDraws) :
    ∃ x, (simTick s d).1.speed = max 7 (min 78 x) := ⟨_, rfl⟩

/-- C9: on every simulator tick — for all pseudo-random draws and
oscillation values — the dynamic power target is clamped to
[50, 1200] W, the smoothed power changes by at most 30 W, a power within
1 W of the dynamic target snaps exactly to it, and the post-tick cadence
and speed lie in [45, 128] rpm and [7, 78] km/h. -/
theorem sim_tick_invariant (s : SimState) (d : SimDraws) :
    (50 ≤ tickDynamicTarget s d ∧ tickDynamicTarget s d ≤ 1200) ∧
    |(simTick s d).1.power - s.power| ≤ 30 ∧
    (|s.power - tickDynamicTarget s d| < 1 →
      (simTick s d).1.power = tickDynamicTarget s d) ∧
    (45 ≤ (simTick s d).1.cadence ∧ (simTick s d).1.cadence ≤ 128) ∧
    (7 ≤ (simTick s d).1.speed ∧ (simTick s d).1.speed ≤ 78) := by
  have hpow := simTick_power_eq s d
  set D := tickDynamicTarget s d with hD
  set st := max (-30 : ℚ) (min 30 ((D - s.power) * (30 / 100))) with hst
  have hst_le : st ≤ 30 := max_le (by norm_num) (min_le_left _ _)
  have hst_ge : (-30 : ℚ) ≤ st := le_max_left _ _
  refine ⟨⟨le_max_left _ _, max_le (by norm_num) (min_le_left _ _)⟩, ?_, ?_, ?_, ?_⟩
  · -- the power moves by at most 30 W
    rw [hpow]
    split_ifs with hsnap
    · rcases le_or_lt ((D - s.power) * (30 / 100)) (-30) with hA | hA
      · exfalso
        have hδ : D - s.power ≤ -100 := by linarith
        have hstv : st = -30 := by
          rw [hst, min_eq_right (by linarith), max_eq_left (by linarith)]
        rw [hstv, abs_lt] at hsnap
        obtain ⟨h1, h2⟩ := hsnap
        linarith
      · rcases le_or_lt 30 ((D - s.power) * (30 / 100)) with hB | hB
        · exfalso
          have hδ : (100 : ℚ) ≤ D - s.power := by linarith
          have hstv : st = 30 := by
            rw [hst, min_eq_left hB]
            rw [max_eq_right (by linarith)]
          rw [hstv, abs_lt] at hsnap
          obtain ⟨h1, h2⟩ := hsnap
          linarith
        · have hstv : st = (D - s.power) * (30 / 100) := by
            rw [hst, min_eq_right (le_of_lt hB), max_eq_right (le_of_lt hA)]
          rw [hstv, abs_lt] at hsnap
          obtain ⟨h1, h2⟩ := hsnap
          rw [abs_le]
          constructor <;> linarith
    · have : s.power + st - s.power = st := by ring
      rw [this, abs_le]
      exact ⟨hst_ge, hst_le⟩
  · -- snap to the dynamic target when within 1 W
    intro hclose
    rw [abs_lt] at hclose
    obtain ⟨hc1, hc2⟩ := hclose
    have hstv : st = (D - s.power) * (30 / 100) := by
      rw [hst, min_eq_right (by linarith), max_eq_right (by linarith)]
    rw [hpow, if_pos]
    rw [hstv, abs_lt]
    constructor <;> linarith
  · obtain ⟨x, hx⟩ := simTick_cadence_eq s d
    rw [hx]
    exact ⟨le_max_left _ _, max_le (by norm_num) (min_le_left _ _)⟩
  · obtain ⟨x, hx⟩ := simTick_speed_eq s d
    rw [hx]
    exact ⟨le_max_left _ _, max_le (by norm_num) (min_le_left _ _)⟩

/-- Witness for C9: from 119.5 W with a steady-mode dynamic target of
120 W (all draws zero), the tick snaps the power exactly to 120 W. -/
theorem sim_tick_invariant_witness :
    |(⟨0, .steady, 5, 120, 239 / 2, 85, 28⟩ : SimState).power -
      tickDynamicTarget ⟨0, .steady, 5, 120, 239 / 2, 85, 28⟩
        ⟨0, 8, 8, 18, 20, 4, 15, 5, 0, 0, 0, 0, 0⟩| < 1 ∧
    (simTick ⟨0, .steady, 5, 120, 239 / 2, 85, 28⟩
        ⟨0, 8, 8, 18, 20, 4, 15, 5, 0, 0, 0, 0, 0⟩).1.power =
      tickDynamicTarget ⟨0, .steady, 5, 120, 239 / 2, 85, 28⟩
        ⟨0, 8, 8, 18, 20, 4, 15, 5, 0, 0, 0, 0, 0⟩ := by
  have htgt : tickDynamicTarget ⟨0, .steady, 5, 120, 239 / 2, 85, 28⟩
      ⟨0, 8, 8, 18, 20, 4, 15, 5, 0, 0, 0, 0, 0⟩ = 120 := by
    simp only [tickDynamicTarget, tickMode, modeOffsets, dynamicTarget]
    norm_num [min_def, max_def]
  have hclose : |(⟨0, .steady, 5, 120, 239 / 2, 85, 28⟩ : SimState).power -
      tickDynamicTarget ⟨0, .steady, 5, 120, 239 / 2, 85, 28⟩
        ⟨0, 8, 8, 18, 20, 4, 15, 5, 0, 0, 0, 0, 0⟩| < 1 := by
    rw [htgt]
    rw [show (⟨0, .steady, 5, 120, 239 / 2, 85, 28⟩ : SimState).power = 239 / 2 from rfl,
      abs_lt]
    constructor <;> norm_num
  exact ⟨hclose,
    (sim_tick_invariant ⟨0, .steady, 5, 120, 239 / 2, 85, 28⟩
      ⟨0, 8, 8, 18, 20, 4, 15, 5, 0, 0, 0, 0, 0⟩).2.2.1 hclose⟩

/-- C6: applying a workout step's target retries the client call up to 3
attempts with a 1-second backoff after each failure; any successful
attempt returns the applied value with the active mode's unit (erg sends
absolute watts, unit "W"; resistance and slope send their FTP-derived
conversions, unit "%"); after 3 failed attempts the step aborts with an
error wrapping the last failure, which aborts the whole workout with
completed=false. -/
theorem apply_step_target_retries (stop : ℕ → Bool) (env : ℕ → ℚ → Except ℕ ℚ)
    (mode : TargetMode) (st : WorkoutStep) (ftp_watts : ℤ) (k t : ℕ)
    (hstop : ∀ u, stop u = false) :
    (modeRequest .erg st ftp_watts = ((st.target_watts : ℚ), "W")) ∧
    (modeRequest .resistance st ftp_watts =
      (watts_to_resistance st.target_watts ftp_watts, "%")) ∧
    (modeRequest .slope st ftp_watts =
      (watts_to_slope st.target_watts ftp_watts, "%")) ∧
    (∀ v, env k (modeRequest mode st ftp_watts).1 = .ok v →
      apply_step_target stop env mode st ftp_watts k t =
        (.ok (v, (modeRequest mode st ftp_watts).2), k + 1, t)) ∧
    (∀ e1 v, env k (modeRequest mode st ftp_watts).1 = .error e1 →
      env (k + 1) (modeRequest mode st ftp_watts).1 = .ok v →
      apply_step_target stop env mode st ftp_watts k t =
        (.ok (v, (modeRequest mode st ftp_watts).2), k + 2, t + 1)) ∧
    (∀ e1 e2 v, env k (modeRequest mode st ftp_watts).1 = .error e1 →
      env (k + 1) (modeRequest mode st ftp_watts).1 = .error e2 →
      env (k + 2) (modeRequest mode st ftp_watts).1 = .ok v →
      apply_step_target stop env mode st ftp_watts k t =
        (.ok (v, (modeRequest mode st ftp_watts).2), k + 3, t + 2)) ∧
    (∀ e1 e2 e3, env k (modeRequest mode st ftp_watts).1 = .error e1 →
      env (k + 1) (modeRequest mode st ftp_watts).1 = .error e2 →
      env (k + 2) (modeRequest mode st ftp_watts).1 = .error e3 →
      apply_step_target stop env mode st ftp_watts k t =
        (.error (some e3), k + 3, t + 3)) ∧
    (∀ e1 e2 e3, env 0 (modeRequest mode st ftp_watts).1 = .error e1 →
      env 1 (modeRequest mode st ftp_watts).1 = .error e2 →
      env 2 (modeRequest mode st ftp_watts).1 = .error e3 →
      ∀ rest, workout_run stop env mode ftp_watts (st :: rest) =
        { events := [], err := true, end_time := 3, finishes := [false] }) := by
  have hmr : modeRequest mode st ftp_watts =
      ((modeRequest mode st ftp_watts).1, (modeRequest mode st ftp_watts).2) := rfl
  refine ⟨rfl, rfl, rfl, ?_, ?_, ?_, ?_, ?_⟩
  · intro v hv
    rw [apply_step_target, hmr]
    simp [applyLoop, hstop, hv]
  · intro e1 v h1 h2
    rw [apply_step_target, hmr]
    simp [applyLoop, hstop, h1, h2]
  · intro e1 e2 v h1 h2 h3
    rw [apply_step_target, hmr]
    simp [applyLoop, hstop, h1, h2, h3]
  · intro e1 e2 e3 h1 h2 h3
    rw [apply_step_target, hmr]
    simp [applyLoop, hstop, h1, h2, h3]
  · intro e1 e2 e3 h1 h2 h3 rest
    have happly : apply_step_target stop env mode st ftp_watts 0 0 =
        (.error (some e3), 3, 3) := by
      rw [apply_step_target, hmr]
      simp [applyLoop, hstop, h1, h2, h3]
    rw [workout_run]
    rw [run_steps, if_neg (by simp [hstop])]
    rw [happly]
    simp [hstop]

/-- Witness for C6: two failing attempts (backoff advancing the clock by
one second each) followed by a success return the applied 150 W with
unit "W" on the third attempt. -/
theorem apply_step_target_retries_witness :
    apply_step_target (fun _ => false)
        (fun k _ => if k < 2 then .error k else .ok 150) .erg
        ⟨60, 150, none, none, none⟩ 200 0 0 =
      (.ok (150, (modeRequest .erg ⟨60, 150, none, none, none⟩ 200).2), 0 + 3, 0 + 2) :=
  (apply_step_target_retries (fun _ => false)
      (fun k _ => if k < 2 then .error k else .ok 150) .erg
      ⟨60, 150, none, none, none⟩ 200 0 0 (fun _ => rfl)).2.2.2.2.2.1
    0 1 150 rfl rfl rfl

theorem stop_stays_set {stop : ℕ → Bool}
    (hmono : ∀ u, stop u = true → stop (u + 1) = true) :
    ∀ u v, u ≤ v → stop u = true → stop v = true := by
  intro u v huv hu
  induction huv with
  | refl => exact hu
  | step _ ih => exact hmono _ ih

theorem pairwise_le_of_const {l : List ℕ} {c : ℕ} (h : ∀ x ∈ l, x = c) :
    l.Pairwise (· ≤ ·) := by
  induction l with
  | nil => exact List.Pairwise.nil
  | cons a as ih =>
      refine List.Pairwise.cons ?_ (ih fun x hx => h x (List.mem_cons_of_mem _ hx))
      intro b hb
      rw [h a (List.mem_cons_self _ _), h b (List.mem_cons_of_mem _ hb)]

theorem countdown_step_events (stop : ℕ → Bool) (mode : TargetMode) (value : ℚ)
    (unit : String) (st : WorkoutStep) (i tot off td : ℕ) :
    ∀ n t, ∀ p ∈ (countdown_step stop mode value unit st i tot off td n t).1,
      stop p.1 = false ∧ p.2.step_index = i := by
  intro n
  induction n with
  | zero =>
      intro t p hp
      simp [countdown_step] at hp
  | succ m ih =>
      intro t p hp
      simp only [countdown_step] at hp
      by_cases hs : stop t
      · rw [if_pos hs] at hp
        simp at hp
      · rw [if_neg hs] at hp
        rcases hrec : countdown_step stop mode value unit st i tot off td m
            (t + 1) with ⟨rest, t2⟩
        rw [hrec] at hp
        simp only [List.mem_cons] at hp
        rcases hp with rfl | hp
        · exact ⟨by simpa using hs, rfl⟩
        · have hmem : p ∈ (countdown_step stop mode value unit st i tot off td m
              (t + 1)).1 := by
            rw [hrec]; exact hp
          exact ih (t + 1) p hmem

theorem countdown_step_full {stop : ℕ → Bool} (hns : ∀ u, stop u = false)
    (mode : TargetMode) (value : ℚ) (unit : String) (st : WorkoutStep)
    (i tot off td : ℕ) :
    ∀ n t, (countdown_step stop mode value unit st i tot off td n t).1.length = n ∧
      (countdown_step stop mode value unit st i tot off td n t).2 = t + n := by
  intro n
  induction n with
  | zero =>
      intro t
      simp [countdown_step]
  | succ m ih =>
      intro t
      rcases hrec : countdown_step stop mode value unit st i tot off td m
          (t + 1) with ⟨rest, t2⟩
      have hm := ih (t + 1)
      rw [hrec] at hm
      simp only [countdown_step, hns, Bool.false_eq_true, if_false, hrec]
      have h1 := hm.1
      have h2 := hm.2
      constructor
      · simpa using h1
      · omega

theorem run_steps_events (stop : ℕ → Bool) (env : ℕ → ℚ → Except ℕ ℚ)
    (mode : TargetMode) (ftp_watts : ℤ) (tot td : ℕ) :
    ∀ steps i off k t,
      ∀ p ∈ (run_steps stop env mode ftp_watts tot td steps i off k t).1,
        stop p.1 = false ∧ i ≤ p.2.step_index := by
  intro steps
  induction steps with
  | nil =>
      intro i off k t p hp
      simp [run_steps] at hp
  | cons st rest ih =>
      intro i off k t p hp
      simp only [run_steps] at hp
      by_cases hs : stop t
      · rw [if_pos hs] at hp
        simp at hp
      · rw [if_neg hs] at hp
        rcases happ : apply_step_target stop env mode st ftp_watts k t
          with ⟨res, k2, t2⟩
        rw [happ] at hp
        match res with
        | .error e => simp at hp
        | .ok (value, unit) =>
            rcases hcd : countdown_step stop mode value unit st i tot off td
                st.duration_sec t2 with ⟨evs, t3⟩
            rcases hrs : run_steps stop env mode ftp_watts tot td rest (i + 1)
                (off + st.duration_sec) k2 t3 with ⟨evs2, err, t4⟩
            dsimp only at hp
            simp only [hcd, hrs, List.mem_append] at hp
            rcases hp with hp | hp
            · have hmem : p ∈ (countdown_step stop mode value unit st i tot off
                  td st.duration_sec t2).1 := by
                rw [hcd]; exact hp
              have hc := countdown_step_events stop mode value unit st i tot off
                td st.duration_sec t2 p hmem
              exact ⟨hc.1, le_of_eq hc.2.symm⟩
            · have hmem : p ∈ (run_steps stop env mode ftp_watts tot td rest
                  (i + 1) (off + st.duration_sec) k2 t3).1 := by
                rw [hrs]; exact hp
              have hr := ih (i + 1) (off + st.duration_sec) k2 t3 p hmem
              exact ⟨hr.1, le_trans (Nat.le_succ i) hr.2⟩

theorem run_steps_sorted (stop : ℕ → Bool) (env : ℕ → ℚ → Except ℕ ℚ)
    (mode : TargetMode) (ftp_watts : ℤ) (tot td : ℕ) :
    ∀ steps i off k t,
      ((run_steps stop env mode ftp_watts tot td steps i off k t).1.map
        (fun p => p.2.step_index)).Pairwise (· ≤ ·) := by
  intro steps
  induction steps with
  | nil =>
      intro i off k t
      simp [run_steps]
  | cons st rest ih =>
      intro i off k t
      by_cases hs : stop t
      · simp [run_steps, hs]
      · rcases happ : apply_step_target stop env mode st ftp_watts k t
          with ⟨res, k2, t2⟩
        match res with
        | .error e => simp [run_steps, hs, happ]
        | .ok (value, unit) =>
            rcases hcd : countdown_step stop mode value unit st i tot off td
                st.duration_sec t2 with ⟨evs, t3⟩
            rcases hrs : run_steps stop env mode ftp_watts tot td rest (i + 1)
                (off + st.duration_sec) k2 t3 with ⟨evs2, err, t4⟩
            have hgoal : (run_steps stop env mode ftp_watts tot td (st :: rest)
                i off k t).1 = evs ++ evs2 := by
              simp only [run_steps, if_neg hs, happ, hcd, hrs]
            rw [hgoal, List.map_append, List.pairwise_append]
            refine ⟨?_, ?_, ?_⟩
            · apply pairwise_le_of_const (c := i)
              intro x hx
              rcases List.mem_map.mp hx with ⟨p, hp, rfl⟩
              have hmem : p ∈ (countdown_step stop mode value unit st i tot off
                  td st.duration_sec t2).1 := by
                rw [hcd]; exact hp
              exact (countdown_step_events stop mode value unit st i tot off td
                st.duration_sec t2 p hmem).2
            · have := ih (i + 1) (off + st.duration_sec) k2 t3
              rw [hrs] at this
              exact this
            · intro a ha b hb
              rcases List.mem_map.mp ha with ⟨p, hp, rfl⟩
              rcases List.mem_map.mp hb with ⟨q, hq, rfl⟩
              have hpa : p ∈ (countdown_step stop mode value unit st i tot off
                  td st.duration_sec t2).1 := by
                rw [hcd]; exact hp
              have hqa : q ∈ (run_steps stop env mode ftp_watts tot td rest
                  (i + 1) (off + st.duration_sec) k2 t3).1 := by
                rw [hrs]; exact hq
              have h1 := (countdown_step_events stop mode value unit st i tot off
                td st.duration_sec t2 p hpa).2
              have h2 := (run_steps_events stop env mode ftp_watts tot td rest
                (i + 1) (off + st.duration_sec) k2 t3 q hqa).2
              omega

theorem apply_first_ok {stop : ℕ → Bool} {env : ℕ → ℚ → Except ℕ ℚ}
    (hns : ∀ u, stop u = false) (mode : TargetMode) (st : WorkoutStep)
    (ftp_watts : ℤ) (k t : ℕ) {v : ℚ}
    (hv : env k (modeRequest mode st ftp_watts).1 = .ok v) :
    apply_step_target stop env mode st ftp_watts k t =
      (.ok (v, (modeRequest mode st ftp_watts).2), k + 1, t) := by
  have hmr : modeRequest mode st ftp_watts =
      ((modeRequest mode st ftp_watts).1, (modeRequest mode st ftp_watts).2) := rfl
  rw [apply_step_target, hmr]
  simp [applyLoop, hns, hv]

theorem run_steps_full {stop : ℕ → Bool} {env : ℕ → ℚ → Except ℕ ℚ}
    (hns : ∀ u, stop u = false) (henv : ∀ k q, ∃ v, env k q = .ok v)
    (mode : TargetMode) (ftp_watts : ℤ) (tot td : ℕ) :
    ∀ steps i off k t,
      (run_steps stop env mode ftp_watts tot td steps i off k t).2.1 = false ∧
      (run_steps stop env mode ftp_watts tot td steps i off k t).1.length =
        (steps.map (fun s => s.duration_sec)).sum := by
  intro steps
  induction steps with
  | nil =>
      intro i off k t
      simp [run_steps]
  | cons st rest ih =>
      intro i off k t
      obtain ⟨v, hv⟩ := henv k (modeRequest mode st ftp_watts).1
      have happ := apply_first_ok hns mode st ftp_watts k t hv
      rcases hcd : countdown_step stop mode v
          (modeRequest mode st ftp_watts).2 st i tot off td st.duration_sec t
        with ⟨evs, t3⟩
      have hcdf := countdown_step_full hns mode v
        (modeRequest mode st ftp_watts).2 st i tot off td st.duration_sec t
      rw [hcd] at hcdf
      rcases hrs : run_steps stop env mode ftp_watts tot td rest (i + 1)
          (off + st.duration_sec) (k + 1) t3 with ⟨evs2, err, t4⟩
      have hih := ih (i + 1) (off + st.duration_sec) (k + 1) t3
      rw [hrs] at hih
      have hgoal : run_steps stop env mode ftp_watts tot td (st :: rest)
          i off k t = (evs ++ evs2, err, t4) := by
        simp only [run_steps, hns, Bool.false_eq_true, if_false, happ, hcd, hrs]
      rw [hgoal]
      simp only [List.length_append, List.map_cons, List.sum_cons]
      exact ⟨by simpa using hih.1, by simp [hcdf.1, hih.2]⟩

/-- C3 counterexample: a run whose single step exhausts its three target
attempts (the client always fails) invokes the finish callback with
completed=false even though stop() was never signalled — the claim's
"completed=true iff stop was never signalled" fails on error aborts. -/
theorem workout_run_error_abort_finishes_false :
    (workout_run (fun _ => false) (fun _ _ => .error 7) .erg 200
        [⟨1, 100, none, none, none⟩]).finishes = [false] ∧
    (workout_run (fun _ => false) (fun _ _ => .error 7) .erg 200
        [⟨1, 100, none, none, none⟩]).events = [] := by
  constructor <;> rfl

/-- C3 (amended): every run invokes the finish callback exactly once
(also on error aborts); completed=true iff no step aborted with an error
AND stop() was never signalled before the run's loop exited; after a
stop is observed no further progress events are emitted (every event is
emitted at a time where the stop flag is still unset, and the flag is
monotone); and a full uninterrupted error-free run emits one event per
second summing to the plan's total duration, with step_index
monotonically non-decreasing. -/
theorem workout_run_reports (stop : ℕ → Bool) (env : ℕ → ℚ → Except ℕ ℚ)
    (mode : TargetMode) (ftp_watts : ℤ) (steps : List WorkoutStep)
    (hmono : ∀ u, stop u = true → stop (u + 1) = true) :
    (workout_run stop env mode ftp_watts steps).finishes.length = 1 ∧
    ((workout_run stop env mode ftp_watts steps).finishes = [true] ↔
      ((workout_run stop env mode ftp_watts steps).err = false ∧
        ∀ u ≤ (workout_run stop env mode ftp_watts steps).end_time,
          stop u = false)) ∧
    (∀ p ∈ (workout_run stop env mode ftp_watts steps).events,
      stop p.1 = false) ∧
    ((∀ u, stop u = false) → (∀ k q, ∃ v, env k q = .ok v) →
      (workout_run stop env mode ftp_watts steps).err = false ∧
      (workout_run stop env mode ftp_watts steps).events.length =
        total_duration_sec steps ∧
      ((workout_run stop env mode ftp_watts steps).events.map
        (fun p => p.2.step_index)).Pairwise (· ≤ ·) ∧
      (workout_run stop env mode ftp_watts steps).finishes = [true]) := by
  rcases hrs : run_steps stop env mode ftp_watts steps.length
      (total_duration_sec steps) steps 1 0 0 0 with ⟨evs, err, tEnd⟩
  have hw : workout_run stop env mode ftp_watts steps =
      { events := evs, err := err, end_time := tEnd,
        finishes := [if err then false else !stop tEnd] } := by
    rw [workout_run, hrs]
  refine ⟨by rw [hw]; rfl, ?_, ?_, ?_⟩
  · rw [hw]
    show ([if err = true then false else !stop tEnd] = [true]) ↔
      (err = false ∧ ∀ u ≤ tEnd, stop u = false)
    constructor
    · intro hf
      injection hf with hf1 hf2
      cases herr : err with
      | true =>
          rw [herr, if_pos rfl] at hf1
          exact absurd hf1 (by simp)
      | false =>
          rw [herr, if_neg (by simp)] at hf1
          have hstopend : stop tEnd = false := by simpa using hf1
          refine ⟨rfl, fun u hu => ?_⟩
          cases hsu : stop u with
          | false => rfl
          | true =>
              have := stop_stays_set hmono u tEnd hu hsu
              rw [this] at hstopend
              exact hstopend
    · rintro ⟨herr, hall⟩
      rw [herr, hall tEnd (le_refl tEnd)]
      simp
  · rw [hw]
    intro p hp
    have hmem : p ∈ (run_steps stop env mode ftp_watts steps.length
        (total_duration_sec steps) steps 1 0 0 0).1 := by
      rw [hrs]; exact hp
    exact (run_steps_events stop env mode ftp_watts steps.length
      (total_duration_sec steps) steps 1 0 0 0 p hmem).1
  · intro hns henv
    have hfull := run_steps_full hns henv mode ftp_watts steps.length
      (total_duration_sec steps) steps 1 0 0 0
    have hsorted := run_steps_sorted stop env mode ftp_watts steps.length
      (total_duration_sec steps) steps 1 0 0 0
    rw [hrs] at hfull hsorted
    dsimp only at hfull hsorted
    rw [hw]
    refine ⟨hfull.1, hfull.2, hsorted, ?_⟩
    dsimp only
    rw [hfull.1]
    simp [hns]

/-- Witness for C3 at a concrete two-step plan (durations 2 and 1) with
no stop request and an always-successful client: the run completes with
a single finish call of true, three progress events, and non-decreasing
step indices. -/
theorem workout_run_reports_witness :
    (workout_run (fun _ => false) (fun _ q => .ok q) .erg 200
        [⟨2, 150, none, none, none⟩, ⟨1, 210, none, none, none⟩]).err = false ∧
    (workout_run (fun _ => false) (fun _ q => .ok q) .erg 200
        [⟨2, 150, none, none, none⟩, ⟨1, 210, none, none, none⟩]).events.length =
      total_duration_sec [⟨2, 150, none, none, none⟩, ⟨1, 210, none, none, none⟩] ∧
    ((workout_run (fun _ => false) (fun _ q => .ok q) .erg 200
        [⟨2, 150, none, none, none⟩, ⟨1, 210, none, none, none⟩]).events.map
      (fun p => p.2.step_index)).Pairwise (· ≤ ·) ∧
    (workout_run (fun _ => false) (fun _ q => .ok q) .erg 200
        [⟨2, 150, none, none, none⟩, ⟨1, 210, none, none, none⟩]).finishes =
      [true] :=
  (workout_run_reports (fun _ => false) (fun _ q => .ok q) .erg 200
      [⟨2, 150, none, none, none⟩, ⟨1, 210, none, none, none⟩]
      (fun _ h => h)).2.2.2 (fun _ => rfl) (fun _ q => ⟨q, rfl⟩)

end Baiku
